import Mathlib

/-!
# Kanban backend: required-parameter validation, card router, Board aggregate

A shallow embedding of

* `server/helpers.js` (`checkRequiredParams`),
* `server/routes/api/cards.js` (the card router),
* the Board aggregate as exercised by `test/server/models/Board.spec.js`,

together with the properties stated about them.
-/

set_option autoImplicit false

namespace Kanban

/-! ## JavaScript values reaching `checkRequiredParams` -/

/-- Values a field of a request body can hold. -/
inductive FieldValue where
  | undefined
  | null
  | bool (b : Bool)
  | num (n : Int)
  | str (s : String)
  deriving DecidableEq, Repr

/-- The `givenParams` argument: `undefined`, `null`, an array of field names, or a plain
object given by its own enumerable properties in insertion order. -/
inductive GivenParams where
  | undefined
  | null
  | array (names : List String)
  | object (fields : List (String × FieldValue))
  deriving DecidableEq, Repr

/-- A JavaScript `Error`, identified by its message. -/
structure JsError where
  message : String
  deriving DecidableEq, Repr

/-- A settled promise: either fulfilled with a value or rejected with an error. -/
inductive Promise (α : Type) where
  | resolved (value : α)
  | rejected (reason : JsError)
  deriving DecidableEq, Repr

namespace Promise

/-- `Promise.resolve(v)`. -/
def resolve {α : Type} (v : α) : Promise α := resolved v

/-- `Promise.reject(e)`. -/
def reject {α : Type} (e : JsError) : Promise α := rejected e

/-- `Promise.all(promises)` over settled promises: fulfilled with the array of values when
all are fulfilled, otherwise rejected with the reason of the first rejected promise in
array order. -/
def all {α : Type} : List (Promise α) → Promise (List α)
  | [] => resolved []
  | rejected e :: _ => rejected e
  | resolved v :: ps =>
    match all ps with
    | resolved vs => resolved (v :: vs)
    | rejected e => rejected e

/-- The promise is rejected. -/
def isRejected {α : Type} : Promise α → Bool
  | rejected _ => true
  | resolved _ => false

/-- The promise is fulfilled. -/
def isResolved {α : Type} : Promise α → Bool
  | resolved _ => true
  | rejected _ => false

end Promise

/-! ## lodash helpers used by `checkRequiredParams` -/

/-- `_.isPlainObject(value)`. -/
def isPlainObject : GivenParams → Bool
  | .object _ => true
  | _ => false

/-- `_.keys(object)`: the own enumerable property names; empty for `null`/`undefined`,
the indices for an array. -/
def keys : GivenParams → List String
  | .object fields => fields.map Prod.fst
  | .array names => (List.range names.length).map toString
  | _ => []

/-- `_.includes(collection, value)` for a string `value`: membership in an array,
membership among the property values of an object, `false` for `null`/`undefined`. -/
def includes : GivenParams → String → Bool
  | .array names, value => decide (value ∈ names)
  | .object fields, value => decide (FieldValue.str value ∈ fields.map Prod.snd)
  | _, _ => false

/-- The message of the error built by the template literal in `checkRequiredParams`. -/
def requiredMessage (param : String) : String :=
  "'" ++ param ++ "' is required"

/-- `exports.checkRequiredParams` of `server/helpers.js`. -/
def checkRequiredParams (givenParams : GivenParams) (requiredParams : List String) :
    Promise (List Unit) :=
  let givenParams :=
    if isPlainObject givenParams then GivenParams.array (keys givenParams) else givenParams
  let promises := requiredParams.map fun param =>
    if !includes givenParams param then
      (Promise.reject ⟨requiredMessage param⟩ : Promise Unit)
    else
      Promise.resolve ()
  Promise.all promises

/-- The field names a `givenParams` argument counts as given. -/
def givenNames : GivenParams → List String
  | .array names => names
  | .object fields => fields.map Prod.fst
  | _ => []

/-! ## The card router (`server/routes/api/cards.js`) -/

/-- HTTP request methods. -/
inductive Method where
  | GET | HEAD | POST | PUT | DELETE | PATCH | OPTIONS | CONNECT | TRACE
  deriving DecidableEq, Repr

/-- A controller action, named by its module and exported function. -/
structure Handler where
  controller : String
  action : String
  deriving DecidableEq, Repr

namespace CardController

/-- `CardController.findById`. -/
def findById : Handler := ⟨"CardController", "findById"⟩
/-- `CardController.update`. -/
def update : Handler := ⟨"CardController", "update"⟩
/-- `CardController.drop`. -/
def drop : Handler := ⟨"CardController", "drop"⟩
/-- `CardController.addColor`. -/
def addColor : Handler := ⟨"CardController", "addColor"⟩
/-- `CardController.removeColor`. -/
def removeColor : Handler := ⟨"CardController", "removeColor"⟩
/-- `CardController.move`. -/
def move : Handler := ⟨"CardController", "move"⟩

end CardController

namespace CommentController

/-- `CommentController.create`. -/
def create : Handler := ⟨"CommentController", "create"⟩

end CommentController

/-- One registered route: the verb it was registered under, its path pattern and its
handler. -/
structure Route where
  method : Method
  path : String
  handler : Handler
  deriving DecidableEq, Repr

/-- An Express router: the stack of routes in registration order. -/
structure Router where
  stack : List Route
  deriving DecidableEq, Repr

namespace Router

/-- `require('express').Router()`: a router with an empty stack. -/
def new : Router := ⟨[]⟩

/-- Registration `router.<verb>(path, handler)`: pushes one route onto the stack. -/
def register (verb : Method) (path : String) (handler : Handler) (r : Router) : Router :=
  ⟨r.stack ++ [⟨verb, path, handler⟩]⟩

/-- `router.get(path, handler)`. -/
def get (path : String) (handler : Handler) (r : Router) : Router :=
  r.register .GET path handler

/-- `router.put(path, handler)`. -/
def put (path : String) (handler : Handler) (r : Router) : Router :=
  r.register .PUT path handler

/-- `router.delete(path, handler)`. -/
def delete (path : String) (handler : Handler) (r : Router) : Router :=
  r.register .DELETE path handler

/-- `router.post(path, handler)`. -/
def post (path : String) (handler : Handler) (r : Router) : Router :=
  r.register .POST path handler

end Router

/-- The router exported by `server/routes/api/cards.js`: the seven registrations of lines
5 to 11, in order. -/
def router : Router :=
  Router.new
    |>.get "/:id" CardController.findById
    |>.put "/:id" CardController.update
    |>.delete "/:id" CardController.drop
    |>.post "/:id/addColor" CardController.addColor
    |>.post "/:id/removeColor" CardController.removeColor
    |>.post "/move" CardController.move
    |>.post "/:id/comments" CommentController.create

/-- Modelled from the spec: the mount point of the card router, `/api/cards`; the file
that mounts the router is not part of the sources. -/
def cardsMountPath : String := "/api/cards"

/-- The card routes as the interface section of the spec lists them: `GET/PUT/DELETE
/api/cards/:id`, `POST /api/cards/:id/addColor|removeColor`, `POST /api/cards/move`,
`POST /api/cards/:id/comments`. -/
def specCardRoutes : List (Method × String) :=
  [(.GET, "/api/cards/:id"), (.PUT, "/api/cards/:id"), (.DELETE, "/api/cards/:id"),
   (.POST, "/api/cards/:id/addColor"), (.POST, "/api/cards/:id/removeColor"),
   (.POST, "/api/cards/move"), (.POST, "/api/cards/:id/comments")]

/-! ### Path matching

Express compiles a route path with `path-to-regexp` (case-insensitive, non-strict, anchored
at the end): `/:id` becomes `^\/(?:([^\/]+?))\/?$`, `/move` becomes `^\/move\/?$` and
`/:id/addColor` becomes `^\/(?:([^\/]+?))\/addColor\/?$`, all with the `i` flag. A pattern is
therefore a sequence of segments, each a literal or a named parameter. -/

/-- One `/`-delimited piece of a route pattern. -/
inductive Segment where
  | literal (text : List Char)
  | param (name : String)
  deriving DecidableEq, Repr

/-- Splits a character list at every `/`. -/
def splitSlash : List Char → List (List Char)
  | [] => [[]]
  | c :: cs =>
    if c = '/' then [] :: splitSlash cs
    else
      match splitSlash cs with
      | [] => [[c]]
      | s :: ss => (c :: s) :: ss

/-- One piece of a pattern as a segment: `:name` is a parameter, anything else a literal. -/
def toSegment : List Char → Segment
  | ':' :: name => .param (String.mk name)
  | text => .literal text

/-- The segments of a route pattern such as `/:id/addColor`. -/
def compilePath (pattern : String) : List Segment :=
  match splitSlash pattern.toList with
  | [] :: pieces => pieces.map toSegment
  | pieces => pieces.map toSegment

/-- Matches a request path against compiled segments, as the generated regular expression
does: each segment consumes `/` and the maximal run of non-`/` characters, a literal
compares case-insensitively, a parameter captures a non-empty run, and at the end one
trailing `/` is allowed. Returns the captured parameters (raw, before URI decoding). -/
def matchSegments : List Segment → List Char → Option (List (String × String))
  | [], rest => if rest = [] ∨ rest = ['/'] then some [] else none
  | _ :: _, [] => none
  | seg :: segs, c :: rest =>
    if c = '/' then
      let taken := rest.takeWhile (fun x => x != '/')
      let rest' := rest.dropWhile (fun x => x != '/')
      match seg with
      | .literal text =>
        if taken.map Char.toLower = text.map Char.toLower then matchSegments segs rest'
        else none
      | .param name =>
        if taken = [] then none
        else (matchSegments segs rest').map (fun ps => (name, String.mk taken) :: ps)
    else none

/-- `layer.match(path)`: the parameters captured when the pattern matches the path. -/
def matchPath (pattern path : String) : Option (List (String × String)) :=
  matchSegments (compilePath pattern) path.toList

namespace Route

/-- `route._handles_method(method)`: a route handles the verb it was registered under, and
a `get` route also handles `HEAD`. -/
def handlesMethod (r : Route) (m : Method) : Bool :=
  let name := if m = .HEAD ∧ r.method ≠ .HEAD then Method.GET else m
  decide (r.method = name)

/-- The route is selected for a request: its pattern matches the path and it handles the
method. -/
def isMatch (r : Route) (m : Method) (path : String) : Bool :=
  (matchPath r.path path).isSome && r.handlesMethod m

end Route

namespace Router

/-- The routes of the stack selected for a request, in stack order. -/
def matching (rt : Router) (m : Method) (path : String) : List Route :=
  rt.stack.filter (fun r => r.isMatch m path)

/-- Dispatch: the handler of the first selected route in stack order, with the parameters
its pattern captures. -/
def dispatch (rt : Router) (m : Method) (path : String) :
    Option (Handler × List (String × String)) :=
  match rt.matching m path with
  | [] => none
  | r :: _ => (matchPath r.path path).map (fun ps => (r.handler, ps))

end Router

/-! ## The Board aggregate

The tables and the fixture are those of `test/server/models/Board.spec.js`; the model
`server/models/Board` itself is not among the sources and is modelled from the spec. -/

/-- A row of `users`. -/
structure UserRow where
  id : String
  username : String
  email : String
  hash : String
  salt : String
  deriving DecidableEq, Repr

/-- A row of `boards`. -/
structure BoardRow where
  id : String
  title : String
  archived : Bool
  deriving DecidableEq, Repr

/-- A row of `lists`. -/
structure ListRow where
  id : String
  title : String
  deriving DecidableEq, Repr

/-- A row of `cards`. -/
structure CardRow where
  id : String
  text : String
  deriving DecidableEq, Repr

/-- A row of `activity`: sequence id, action verb, entity type and entity id. The entry
snapshot and the timestamp are left out. -/
structure ActivityRow where
  id : Nat
  action : String
  type : String
  entry_id : String
  deriving DecidableEq, Repr

/-- The relational store: entity tables, join tables and the activity log. -/
structure Store where
  users : List UserRow
  boards : List BoardRow
  users_boards : List (String × String)
  lists : List ListRow
  boards_lists : List (String × String)
  cards : List CardRow
  lists_cards : List (String × String)
  starred : List (String × String)
  activity : List ActivityRow
  deriving DecidableEq, Repr

/-- The `setup` of `Board.spec.js` run on freshly recreated tables: one user, two boards of
which only the first is linked to the user, one list on the first board, one card on that
list. -/
def setup (boardId board2Id listId cardId userId : String) : Store :=
  { users := [⟨userId, "test", "test@test.com", "hash", "salt"⟩]
    boards := [⟨boardId, "test board", false⟩, ⟨board2Id, "test board 2", false⟩]
    users_boards := [(userId, boardId)]
    lists := [⟨listId, "test list"⟩]
    boards_lists := [(boardId, listId)]
    cards := [⟨cardId, "test card"⟩]
    lists_cards := [(listId, cardId)]
    starred := []
    activity := [] }

/-- A card as `findById` returns it. -/
structure CardView where
  id : String
  text : String
  link : String
  deriving DecidableEq, Repr

/-- A list with its nested cards as `findById` returns it. -/
structure ListView where
  id : String
  title : String
  link : String
  cards : List CardView
  deriving DecidableEq, Repr

/-- A board with its nested lists as `findById` returns it. -/
structure BoardView where
  id : String
  title : String
  link : String
  lists : List ListView
  deriving DecidableEq, Repr

/-- An element of the result of `findAllByUser`. -/
structure BoardSummary where
  id : String
  title : String
  link : String
  lists_length : Nat
  cards_length : Nat
  starred : Bool
  deriving DecidableEq, Repr

/-- The `{id}` result of `archive`. -/
structure IdResult where
  id : String
  deriving DecidableEq, Repr

/-- Failures of the aggregate. -/
inductive BoardError where
  | NotFound
  deriving DecidableEq, Repr

namespace Board

/-- Modelled from the spec: the derived link of a board, `/boards/{boardId}`; the model
`server/models/Board` is missing from the sources. -/
def boardLink (boardId : String) : String := "/boards/" ++ boardId

/-- Modelled from the spec: the derived link of a list, `/boards/{boardId}/lists/{listId}`;
the model `server/models/Board` is missing from the sources. -/
def listLink (boardId listId : String) : String :=
  "/boards/" ++ boardId ++ "/lists/" ++ listId

/-- Modelled from the spec: the derived link of a card, `/boards/{boardId}/cards/{cardId}`,
the form the test of `findById` expects; the model `server/models/Board` is missing from the
sources. -/
def cardLink (boardId cardId : String) : String :=
  "/boards/" ++ boardId ++ "/cards/" ++ cardId

/-- Modelled from the spec: the cards of a list, the rows of `cards` joined to the list
through `lists_cards`, each with its derived link; the model `server/models/Board` is
missing from the sources. -/
def cardsOf (db : Store) (boardId listId : String) : List CardView :=
  (db.cards.filter fun c => decide ((listId, c.id) ∈ db.lists_cards)).map fun c =>
    { id := c.id, text := c.text, link := cardLink boardId c.id }

/-- Modelled from the spec: the lists of a board, the rows of `lists` joined to the board
through `boards_lists`, each with its derived link and nested cards; the model
`server/models/Board` is missing from the sources. -/
def listsOf (db : Store) (boardId : String) : List ListView :=
  (db.lists.filter fun l => decide ((boardId, l.id) ∈ db.boards_lists)).map fun l =>
    { id := l.id, title := l.title, link := listLink boardId l.id
      cards := cardsOf db boardId l.id }

/-- Modelled from the spec: `findById(boardId)` returns the board with nested lists, each
with nested cards, each carrying a derived link, and fails with NotFound if the board is
absent; the model `server/models/Board` is missing from the sources. -/
def findById (db : Store) (boardId : String) : Except BoardError BoardView :=
  match db.boards.find? (fun b => decide (b.id = boardId)) with
  | none => .error .NotFound
  | some b =>
    .ok { id := b.id, title := b.title, link := boardLink b.id, lists := listsOf db b.id }

/-- Modelled from the spec: the number of lists of a board, counted over `lists` joined
with `boards_lists`; the model `server/models/Board` is missing from the sources. -/
def listsLength (db : Store) (boardId : String) : Nat :=
  db.lists.countP fun l => decide ((boardId, l.id) ∈ db.boards_lists)

/-- Modelled from the spec: the number of cards of a board in total across its lists,
counted over `cards` joined with `lists_cards` for each list of the board; the model
`server/models/Board` is missing from the sources. -/
def cardsLength (db : Store) (boardId : String) : Nat :=
  ((db.lists.filter fun l => decide ((boardId, l.id) ∈ db.boards_lists)).map fun l =>
    db.cards.countP fun c => decide ((l.id, c.id) ∈ db.lists_cards)).sum

/-- Modelled from the spec: the element of `findAllByUser` for one board row: id, title,
link, the two counts, and `starred` derived from the star join table for this user; the
model `server/models/Board` is missing from the sources. -/
def summary (db : Store) (userId : String) (b : BoardRow) : BoardSummary :=
  { id := b.id, title := b.title, link := boardLink b.id
    lists_length := listsLength db b.id
    cards_length := cardsLength db b.id
    starred := decide ((userId, b.id) ∈ db.starred) }

/-- Modelled from the spec: `findAllByUser(userId)` returns all boards owned by the user
(linked through `users_boards`), each annotated with `lists_length`, `cards_length` and
`starred`; the model `server/models/Board` is missing from the sources. -/
def findAllByUser (db : Store) (userId : String) : List BoardSummary :=
  (db.boards.filter fun b => decide ((userId, b.id) ∈ db.users_boards)).map (summary db userId)

/-- Modelled from the spec: `archive(boardId)` sets `archived = true` on the board and
returns `{id}`, writing no activity; an absent board is NotFound; the model
`server/models/Board` is missing from the sources. -/
def archive (db : Store) (boardId : String) : Except BoardError (Store × IdResult) :=
  match db.boards.find? (fun b => decide (b.id = boardId)) with
  | none => .error .NotFound
  | some _ =>
    .ok ({ db with
            boards := db.boards.map fun b =>
              if b.id = boardId then { b with archived := true } else b },
         { id := boardId })

/-- Modelled from the spec: the Activity Recorder appends one row with the next sequence
id, ids starting at 1; the recorder is missing from the sources. -/
def record (db : Store) (action type entityId : String) : Store :=
  { db with
    activity := db.activity ++
      [{ id := db.activity.length + 1, action := action, type := type, entry_id := entityId }] }

/-- Modelled from the spec: `markAsStarred(userId, boardId)` inserts the star join row for
(user, board) when it is not there, writes Activity("Starred", type board, entry_id
boardId) and returns the board in the shape of a `findAllByUser` element, read after the
write; an absent board is NotFound; the model `server/models/Board` is missing from the
sources. -/
def markAsStarred (db : Store) (userId boardId : String) :
    Except BoardError (Store × BoardSummary) :=
  match db.boards.find? (fun b => decide (b.id = boardId)) with
  | none => .error .NotFound
  | some b =>
    let db1 : Store :=
      if (userId, boardId) ∈ db.starred then db
      else { db with starred := db.starred ++ [(userId, boardId)] }
    let db2 := record db1 "Starred" "board" boardId
    .ok (db2, summary db2 userId b)

end Board

/-! ### Helper lemmas -/

/-- After the plain-object normalisation, `_.includes` is membership in `givenNames`. -/
theorem includes_normalised (g : GivenParams) (p : String) :
    includes (if isPlainObject g then GivenParams.array (keys g) else g) p
      = decide (p ∈ givenNames g) := by
  cases g <;> simp [isPlainObject, keys, includes, givenNames]

/-- The promise of `checkRequiredParams`, written over the list of missing names. -/
theorem checkRequiredParams_eq (g : GivenParams) (R : List String) :
    checkRequiredParams g R
      = match R.find? (fun p => decide (p ∉ givenNames g)) with
        | some p => Promise.rejected ⟨requiredMessage p⟩
        | none => Promise.resolved (R.map fun _ => ()) := by
  unfold checkRequiredParams
  simp only [includes_normalised, Promise.resolve, Promise.reject]
  induction R with
  | nil => simp [Promise.all]
  | cons r rs ih =>
    by_cases h : r ∈ givenNames g
    · simp only [List.map_cons, h, decide_True, Bool.not_true, Bool.false_eq_true, if_false,
        Promise.all, List.find?_cons, not_true_eq_false, decide_False]
      rw [ih]
      cases hf : List.find? (fun p => decide (p ∉ givenNames g)) rs <;> simp
    · simp [h, Promise.all, List.find?_cons]

/-- A promise is rejected exactly when `find?` locates a missing name. -/
theorem checkRequiredParams_isRejected (g : GivenParams) (R : List String) :
    (checkRequiredParams g R).isRejected = true ↔ ∃ p ∈ R, p ∉ givenNames g := by
  rw [checkRequiredParams_eq]
  cases hf : List.find? (fun p => decide (p ∉ givenNames g)) R with
  | none =>
    simp only [Promise.isRejected, Bool.false_eq_true, false_iff, not_exists, not_and]
    intro p hp
    have := List.find?_eq_none.mp hf p hp
    simpa using this
  | some q =>
    simp only [Promise.isRejected, true_iff]
    refine ⟨q, List.mem_of_find?_eq_some hf, ?_⟩
    simpa using List.find?_some hf

/-- A promise is fulfilled exactly when no required name is missing. -/
theorem checkRequiredParams_isResolved (g : GivenParams) (R : List String) :
    (checkRequiredParams g R).isResolved = true ↔ ∀ p ∈ R, p ∈ givenNames g := by
  rw [checkRequiredParams_eq]
  cases hf : List.find? (fun p => decide (p ∉ givenNames g)) R with
  | none =>
    simp only [Promise.isResolved, true_iff]
    intro p hp
    have := List.find?_eq_none.mp hf p hp
    simpa using this
  | some q =>
    simp only [Promise.isResolved, Bool.false_eq_true, false_iff, not_forall]
    refine ⟨q, List.mem_of_find?_eq_some hf, ?_⟩
    simpa using List.find?_some hf

/-- The first missing name of `pre ++ p :: post` is `p` when all of `pre` is given. -/
theorem find_missing_append (G pre post : List String) (p : String)
    (hpre : ∀ q ∈ pre, q ∈ G) (hp : p ∉ G) :
    (pre ++ p :: post).find? (fun q => decide (q ∉ G)) = some p := by
  induction pre with
  | nil => simp [List.find?_cons, hp]
  | cons a as ih =>
    have ha : a ∈ G := hpre a (List.mem_cons_self _ _)
    have has : ∀ q ∈ as, q ∈ G := fun q hq => hpre q (List.mem_cons_of_mem _ hq)
    have := ih has
    simp only [List.cons_append, List.find?_cons, ha, not_true_eq_false, decide_False]
    exact this

/-- With every name before `p` given and `p` missing, the rejection names `p`. -/
theorem checkRequiredParams_first_missing (g : GivenParams) (pre post : List String)
    (p : String) (hpre : ∀ q ∈ pre, q ∈ givenNames g) (hp : p ∉ givenNames g) :
    checkRequiredParams g (pre ++ p :: post) = Promise.rejected ⟨requiredMessage p⟩ := by
  rw [checkRequiredParams_eq, find_missing_append (givenNames g) pre post p hpre hp]

/-- A list with a missing name splits at its first missing name. -/
theorem exists_first_missing (G : List String) (R : List String) (h : ∃ q ∈ R, q ∉ G) :
    ∃ pre p post, R = pre ++ p :: post ∧ (∀ q ∈ pre, q ∈ G) ∧ p ∉ G := by
  induction R with
  | nil => simp at h
  | cons r rs ih =>
    by_cases hr : r ∈ G
    · obtain ⟨q, hq, hqG⟩ := h
      have hq' : q ∈ rs := by
        rcases List.mem_cons.mp hq with rfl | hq'
        · exact absurd hr hqG
        · exact hq'
      obtain ⟨pre, p, post, hR, hpre, hp⟩ := ih ⟨q, hq', hqG⟩
      refine ⟨r :: pre, p, post, by simp [hR], ?_, hp⟩
      intro x hx
      rcases List.mem_cons.mp hx with rfl | hx'
      · exact hr
      · exact hpre x hx'
    · exact ⟨[], r, rs, rfl, by simp, hr⟩

/-! ## Properties of `checkRequiredParams` -/

/-- C1: for an array of given names `G`, or a plain object whose keys are the names, and
every list `R` of required names, the promise returned by `checkRequiredParams` is rejected
if and only if some element of `R` is not among the given names, and it is fulfilled if and
only if every element of `R` is given; in particular it is fulfilled for the empty `R`. -/
theorem checkRequiredParams_rejects_iff_missing (G R : List String)
    (fields : List (String × FieldValue)) :
    ((checkRequiredParams (.array G) R).isRejected = true ↔ ∃ p ∈ R, p ∉ G) ∧
    ((checkRequiredParams (.array G) R).isResolved = true ↔ ∀ p ∈ R, p ∈ G) ∧
    ((checkRequiredParams (.object fields) R).isRejected = true
      ↔ ∃ p ∈ R, p ∉ fields.map Prod.fst) ∧
    ((checkRequiredParams (.object fields) R).isResolved = true
      ↔ ∀ p ∈ R, p ∈ fields.map Prod.fst) ∧
    (checkRequiredParams (.array G) []).isResolved = true ∧
    (checkRequiredParams (.object fields) []).isResolved = true :=
  ⟨checkRequiredParams_isRejected (.array G) R,
   checkRequiredParams_isResolved (.array G) R,
   checkRequiredParams_isRejected (.object fields) R,
   checkRequiredParams_isResolved (.object fields) R,
   (checkRequiredParams_isResolved (.array G) []).mpr (by simp),
   (checkRequiredParams_isResolved (.object fields) []).mpr (by simp)⟩

/-- C2: when some element of `R` is missing from the given names, `R` splits as
`pre ++ p :: post` with every name of `pre` given and `p` missing, and the promise is
rejected with the message `'<p>' is required` for that first missing `p`, whatever `post`
holds. -/
theorem checkRequiredParams_reports_first_missing (g : GivenParams) (R : List String)
    (h : ∃ q ∈ R, q ∉ givenNames g) :
    ∃ pre p post, R = pre ++ p :: post ∧ (∀ q ∈ pre, q ∈ givenNames g) ∧ p ∉ givenNames g ∧
      (∀ post' : List String,
        checkRequiredParams g (pre ++ p :: post')
          = Promise.rejected ⟨"'" ++ p ++ "' is required"⟩) ∧
      checkRequiredParams g R = Promise.rejected ⟨"'" ++ p ++ "' is required"⟩ := by
  obtain ⟨pre, p, post, hR, hpre, hp⟩ := exists_first_missing (givenNames g) R h
  refine ⟨pre, p, post, hR, hpre, hp, ?_, ?_⟩
  · intro post'
    exact checkRequiredParams_first_missing g pre post' p hpre hp
  · rw [hR]
    exact checkRequiredParams_first_missing g pre post p hpre hp

/-- C2 at the body `["title"]` with `["title", "text", "boardId"]` required. -/
theorem checkRequiredParams_reports_first_missing_witness :
    (∃ q ∈ ["title", "text", "boardId"], q ∉ givenNames (.array ["title"])) ∧
    ∃ pre p post, ["title", "text", "boardId"] = pre ++ p :: post ∧
      (∀ q ∈ pre, q ∈ givenNames (.array ["title"])) ∧ p ∉ givenNames (.array ["title"]) ∧
      (∀ post' : List String,
        checkRequiredParams (.array ["title"]) (pre ++ p :: post')
          = Promise.rejected ⟨"'" ++ p ++ "' is required"⟩) ∧
      checkRequiredParams (.array ["title"]) ["title", "text", "boardId"]
        = Promise.rejected ⟨"'" ++ p ++ "' is required"⟩ :=
  have h : ∃ q ∈ ["title", "text", "boardId"], q ∉ givenNames (.array ["title"]) :=
    ⟨"text", by decide, by decide⟩
  ⟨h, checkRequiredParams_reports_first_missing (.array ["title"])
    ["title", "text", "boardId"] h⟩

/-- C8: for a plain object the outcome is that of the call on the array of its keys, and
two plain objects with the same set of keys give the same outcome whatever values their
fields hold. -/
theorem checkRequiredParams_object_keys_only (o o' : List (String × FieldValue))
    (R : List String) (h : ∀ k, k ∈ o.map Prod.fst ↔ k ∈ o'.map Prod.fst) :
    checkRequiredParams (.object o) R = checkRequiredParams (.array (keys (.object o))) R ∧
    checkRequiredParams (.object o) R = checkRequiredParams (.object o') R := by
  refine ⟨?_, ?_⟩
  · simp [checkRequiredParams, isPlainObject, keys]
  · rw [checkRequiredParams_eq, checkRequiredParams_eq]
    have : (fun p => decide (p ∉ givenNames (.object o)))
        = (fun p => decide (p ∉ givenNames (.object o'))) := by
      funext p
      simp only [givenNames, h p]
    rw [this]

/-- C8 at two bodies with keys `title` and `text` holding null, undefined and empty
values. -/
theorem checkRequiredParams_object_keys_only_witness :
    (∀ k, k ∈ [("title", FieldValue.null), ("text", FieldValue.undefined)].map Prod.fst
        ↔ k ∈ [("text", FieldValue.str ""), ("title", FieldValue.str "x")].map Prod.fst) ∧
    checkRequiredParams (.object [("title", .null), ("text", .undefined)]) ["title", "text"]
      = Promise.resolved [(), ()] ∧
    checkRequiredParams (.object [("title", .null), ("text", .undefined)]) ["title", "text"]
      = checkRequiredParams
          (.array (keys (.object [("title", .null), ("text", .undefined)]))) ["title", "text"] ∧
    checkRequiredParams (.object [("title", .null), ("text", .undefined)]) ["title", "text"]
      = checkRequiredParams (.object [("text", .str ""), ("title", .str "x")])
          ["title", "text"] :=
  have h : ∀ k, k ∈ [("title", FieldValue.null), ("text", FieldValue.undefined)].map Prod.fst
      ↔ k ∈ [("text", FieldValue.str ""), ("title", FieldValue.str "x")].map Prod.fst := by
    intro k
    simp only [List.map_cons, List.map_nil, List.mem_cons, List.mem_singleton]
    constructor <;> (intro hk; rcases hk with hk | hk | hk <;> simp_all)
  ⟨h, by decide,
    checkRequiredParams_object_keys_only [("title", .null), ("text", .undefined)]
      [("text", .str ""), ("title", .str "x")] ["title", "text"] h⟩

/-- C9: for `givenParams` equal to `null` or `undefined` the call returns a promise (no
exception path is taken): fulfilled when `R` is empty, rejected with the message
`'<R[0]>' is required` when `R` is non-empty. -/
theorem checkRequiredParams_nullish (R : List String) :
    checkRequiredParams .null R
      = (match R with
        | [] => Promise.resolved []
        | r :: _ => Promise.rejected ⟨"'" ++ r ++ "' is required"⟩) ∧
    checkRequiredParams .undefined R
      = (match R with
        | [] => Promise.resolved []
        | r :: _ => Promise.rejected ⟨"'" ++ r ++ "' is required"⟩) := by
  cases R with
  | nil => exact ⟨rfl, rfl⟩
  | cons r rs =>
    constructor <;>
      simp [checkRequiredParams, isPlainObject, includes, Promise.all, Promise.reject,
        requiredMessage]

/-! ### Helper lemmas for the router -/

/-- The pattern `/:id` compiles to one parameter. -/
theorem compilePath_id : compilePath "/:id" = [.param "id"] := by decide

/-- The pattern `/:id/addColor` compiles to a parameter and a literal. -/
theorem compilePath_addColor :
    compilePath "/:id/addColor" = [.param "id", .literal "addColor".toList] := by decide

/-- The pattern `/:id/removeColor` compiles to a parameter and a literal. -/
theorem compilePath_removeColor :
    compilePath "/:id/removeColor" = [.param "id", .literal "removeColor".toList] := by decide

/-- The pattern `/move` compiles to one literal. -/
theorem compilePath_move : compilePath "/move" = [.literal "move".toList] := by decide

/-- The pattern `/:id/comments` compiles to a parameter and a literal. -/
theorem compilePath_comments :
    compilePath "/:id/comments" = [.param "id", .literal "comments".toList] := by decide

/-- The empty pattern matches only the empty rest and a single trailing `/`. -/
theorem matchSegments_nil_isSome (cs : List Char) :
    (matchSegments [] cs).isSome = true ↔ cs = [] ∨ cs = ['/'] := by
  unfold matchSegments
  split_ifs with h <;> simp [h]

/-- A matching non-empty pattern consumes `/` and a run accepted by its first segment, and
the remaining pattern matches what follows the run. -/
theorem matchSegments_cons_isSome (seg : Segment) (segs : List Segment) (cs : List Char)
    (h : (matchSegments (seg :: segs) cs).isSome = true) :
    ∃ rest, cs = '/' :: rest ∧
      (matchSegments segs (rest.dropWhile (fun x => x != '/'))).isSome = true ∧
      (match seg with
        | .literal text =>
          (rest.takeWhile (fun x => x != '/')).map Char.toLower = text.map Char.toLower
        | .param _ => rest.takeWhile (fun x => x != '/') ≠ []) := by
  cases cs with
  | nil => simp [matchSegments] at h
  | cons c rest =>
    by_cases hc : c = '/'
    · subst hc
      refine ⟨rest, rfl, ?_⟩
      cases seg with
      | literal text =>
        simp only [matchSegments, if_true] at h
        split_ifs at h with ht
        · exact ⟨h, ht⟩
        · simp at h
      | param name =>
        simp only [matchSegments, if_true] at h
        split_ifs at h with ht
        · simp at h
        · exact ⟨by simpa using h, ht⟩
    · simp [matchSegments, hc] at h

/-- A one-literal pattern and a parameter-then-literal pattern never match the same path. -/
theorem matchSegments_literal_excl (t t2 : List Char) (n : String) (cs : List Char)
    (ht2 : t2 ≠ []) (h1 : (matchSegments [.literal t] cs).isSome = true) :
    (matchSegments [.param n, .literal t2] cs).isSome = false := by
  by_contra h2
  rw [Bool.not_eq_false] at h2
  obtain ⟨rest, hcs, hnil, -⟩ := matchSegments_cons_isSome _ _ _ h1
  obtain ⟨rest', hcs', hlit, -⟩ := matchSegments_cons_isSome _ _ _ h2
  obtain ⟨rest2, hd, -, hrun⟩ := matchSegments_cons_isSome _ _ _ hlit
  have hrr : rest' = rest := by
    rw [hcs] at hcs'
    exact (List.cons.inj hcs').2.symm
  subst hrr
  rcases (matchSegments_nil_isSome _).mp hnil with hn | hn
  · rw [hn] at hd
    cases hd
  · rw [hn] at hd
    have : rest2 = [] := (List.cons.inj hd).2.symm
    subst this
    simp only [List.takeWhile_nil, List.map_nil] at hrun
    exact ht2 (List.map_eq_nil_iff.mp hrun.symm)

/-- Two parameter-then-literal patterns with different literals never match the same path. -/
theorem matchSegments_param_literal_excl (t1 t2 : List Char) (n1 n2 : String)
    (cs : List Char) (h : t1.map Char.toLower ≠ t2.map Char.toLower)
    (h1 : (matchSegments [.param n1, .literal t1] cs).isSome = true) :
    (matchSegments [.param n2, .literal t2] cs).isSome = false := by
  by_contra h2
  rw [Bool.not_eq_false] at h2
  obtain ⟨rest, hcs, hlit, -⟩ := matchSegments_cons_isSome _ _ _ h1
  obtain ⟨rest', hcs', hlit', -⟩ := matchSegments_cons_isSome _ _ _ h2
  have hrr : rest' = rest := by
    rw [hcs] at hcs'
    exact (List.cons.inj hcs').2.symm
  subst hrr
  obtain ⟨r1, hd1, -, hrun1⟩ := matchSegments_cons_isSome _ _ _ hlit
  obtain ⟨r2, hd2, -, hrun2⟩ := matchSegments_cons_isSome _ _ _ hlit'
  have : r2 = r1 := by
    rw [hd1] at hd2
    exact (List.cons.inj hd2).2.symm
  subst this
  exact h (hrun1.symm.trans hrun2)

/-- The stack of the card router after the seven registrations. -/
theorem router_stack :
    router.stack =
      [⟨.GET, "/:id", CardController.findById⟩,
       ⟨.PUT, "/:id", CardController.update⟩,
       ⟨.DELETE, "/:id", CardController.drop⟩,
       ⟨.POST, "/:id/addColor", CardController.addColor⟩,
       ⟨.POST, "/:id/removeColor", CardController.removeColor⟩,
       ⟨.POST, "/move", CardController.move⟩,
       ⟨.POST, "/:id/comments", CommentController.create⟩] := by
  decide

/-- For every method and path at most one route of the card router is selected. -/
theorem router_matching_length_le_one (m : Method) (path : String) :
    (router.matching m path).length ≤ 1 := by
  have hAR := matchSegments_param_literal_excl "addColor".toList "removeColor".toList
    "id" "id" path.toList (by decide)
  have hAC := matchSegments_param_literal_excl "addColor".toList "comments".toList
    "id" "id" path.toList (by decide)
  have hRC := matchSegments_param_literal_excl "removeColor".toList "comments".toList
    "id" "id" path.toList (by decide)
  have hMA := matchSegments_literal_excl "move".toList "addColor".toList "id" path.toList
    (by decide)
  have hMR := matchSegments_literal_excl "move".toList "removeColor".toList "id" path.toList
    (by decide)
  have hMC := matchSegments_literal_excl "move".toList "comments".toList "id" path.toList
    (by decide)
  unfold Router.matching
  rw [router_stack]
  cases m
  case POST =>
    simp only [List.filter_cons, Route.isMatch, Route.handlesMethod, matchPath, compilePath_id,
      compilePath_addColor, compilePath_removeColor, compilePath_move, compilePath_comments,
      List.filter_nil]
    generalize (matchSegments [.param "id", .literal "addColor".toList] path.toList).isSome = a at *
    generalize (matchSegments [.param "id", .literal "removeColor".toList] path.toList).isSome = b at *
    generalize (matchSegments [.literal "move".toList] path.toList).isSome = c at *
    generalize (matchSegments [.param "id", .literal "comments".toList] path.toList).isSome = d at *
    generalize (matchSegments [.param "id"] path.toList).isSome = e at *
    cases a <;> cases b <;> cases c <;> cases d <;> cases e <;> simp_all
  all_goals
    simp only [List.filter_cons, Route.isMatch, Route.handlesMethod, matchPath, compilePath_id,
      compilePath_addColor, compilePath_removeColor, compilePath_move, compilePath_comments,
      List.filter_nil]
    generalize (matchSegments [.param "id"] path.toList).isSome = e at *
    cases e <;> simp

/-- Two permuted lists with at most one element are equal. -/
theorem perm_eq_of_length_le_one {α : Type} (l l' : List α) (h : l'.Perm l)
    (hl : l.length ≤ 1) : l' = l := by
  match l, hl with
  | [], _ => exact List.perm_nil.mp h
  | [a], _ => exact List.perm_singleton.mp h

/-- Dispatch on any reordering of the card router's stack equals dispatch on the stack. -/
theorem router_dispatch_perm (m : Method) (path : String) (stack' : List Route)
    (h : stack'.Perm router.stack) :
    (Router.mk stack').dispatch m path = router.dispatch m path := by
  have hp : ((Router.mk stack').matching m path).Perm (router.matching m path) :=
    List.Perm.filter _ h
  have := perm_eq_of_length_le_one _ _ hp (router_matching_length_le_one m path)
  unfold Router.dispatch
  rw [this]

/-! ## Properties of the card router -/

/-- C6: the card router holds exactly seven routes, in registration order `GET /:id` to
`CardController.findById`, `PUT /:id` to `CardController.update`, `DELETE /:id` to
`CardController.drop`, `POST /:id/addColor` to `CardController.addColor`,
`POST /:id/removeColor` to `CardController.removeColor`, `POST /move` to
`CardController.move` and `POST /:id/comments` to `CommentController.create`; under the
mount point `/api/cards` these are the card routes the spec lists. -/
theorem card_router_routes :
    router.stack.map (fun r => (r.method, r.path, r.handler)) =
      [(Method.GET, "/:id", CardController.findById),
       (Method.PUT, "/:id", CardController.update),
       (Method.DELETE, "/:id", CardController.drop),
       (Method.POST, "/:id/addColor", CardController.addColor),
       (Method.POST, "/:id/removeColor", CardController.removeColor),
       (Method.POST, "/move", CardController.move),
       (Method.POST, "/:id/comments", CommentController.create)] ∧
    router.stack.length = 7 ∧
    router.stack.map (fun r => (r.method, cardsMountPath ++ r.path)) = specCardRoutes := by
  decide

/-- C10: for every method and request path at most one route of the card router is
selected, so dispatch is the same for every reordering of the registrations; `POST /move`
selects only the route to `CardController.move` and no route with an `:id` pattern, while
`GET`, `PUT` and `DELETE` on `/move` go to the `/:id` routes with `id = "move"`. -/
theorem card_router_unique_match (m : Method) (path : String) :
    (router.matching m path).length ≤ 1 ∧
    (∀ stack' : List Route, stack'.Perm router.stack →
      (Router.mk stack').dispatch m path = router.dispatch m path) ∧
    router.matching .POST "/move" = [⟨.POST, "/move", CardController.move⟩] ∧
    (∀ r ∈ router.stack, r.path ≠ "/move" → r.isMatch .POST "/move" = false) ∧
    router.dispatch .POST "/move" = some (CardController.move, []) ∧
    router.dispatch .GET "/move" = some (CardController.findById, [("id", "move")]) ∧
    router.dispatch .PUT "/move" = some (CardController.update, [("id", "move")]) ∧
    router.dispatch .DELETE "/move" = some (CardController.drop, [("id", "move")]) := by
  refine ⟨router_matching_length_le_one m path, router_dispatch_perm m path,
    by decide, ?_, by decide, by decide, by decide, by decide⟩
  rw [router_stack]
  decide

/-! ### Helper lemmas for the Board aggregate -/

/-- An existing board id is found, and the row found carries that id. -/
theorem find_board_of_exists (db : Store) (b : String) (hb : ∃ row ∈ db.boards, row.id = b) :
    ∃ row, db.boards.find? (fun r => decide (r.id = b)) = some row ∧ row.id = b ∧
      row ∈ db.boards := by
  cases hf : db.boards.find? (fun r => decide (r.id = b)) with
  | none =>
    obtain ⟨row, hrow, hid⟩ := hb
    have := List.find?_eq_none.mp hf row hrow
    simp [hid] at this
  | some row =>
    refine ⟨row, rfl, ?_, List.mem_of_find?_eq_some hf⟩
    simpa using List.find?_some hf

/-- The count of lists of a board is the number of nested lists. -/
theorem listsLength_eq (db : Store) (b : String) :
    Board.listsLength db b = (Board.listsOf db b).length := by
  simp [Board.listsLength, Board.listsOf, List.countP_eq_length_filter]

/-- The count of cards of a board is the total number of nested cards. -/
theorem cardsLength_eq (db : Store) (b : String) :
    Board.cardsLength db b = ((Board.listsOf db b).map fun lv => lv.cards.length).sum := by
  simp [Board.cardsLength, Board.listsOf, Board.cardsOf, List.countP_eq_length_filter,
    Function.comp_def]

/-- The ids of the nested lists are the ids of the joined rows of `lists`. -/
theorem listsOf_ids (db : Store) (b : String) :
    (Board.listsOf db b).map (fun lv => lv.id)
      = (db.lists.filter fun l => decide ((b, l.id) ∈ db.boards_lists)).map fun l => l.id := by
  simp [Board.listsOf, Function.comp_def]

/-- The ids of the nested cards are the ids of the joined rows of `cards`. -/
theorem cardsOf_ids (db : Store) (b l : String) :
    (Board.cardsOf db b l).map (fun cv => cv.id)
      = (db.cards.filter fun c => decide ((l, c.id) ∈ db.lists_cards)).map fun c => c.id := by
  simp [Board.cardsOf, Function.comp_def]

/-- Every nested list carries its link and the cards of that list. -/
theorem listsOf_mem (db : Store) (b : String) (lv : ListView) (h : lv ∈ Board.listsOf db b) :
    lv.link = "/boards/" ++ b ++ "/lists/" ++ lv.id ∧ lv.cards = Board.cardsOf db b lv.id := by
  simp only [Board.listsOf, List.mem_map, List.mem_filter] at h
  obtain ⟨l, -, rfl⟩ := h
  exact ⟨rfl, rfl⟩

/-- Every nested card carries its link. -/
theorem cardsOf_mem (db : Store) (b l : String) (cv : CardView)
    (h : cv ∈ Board.cardsOf db b l) : cv.link = "/boards/" ++ b ++ "/cards/" ++ cv.id := by
  simp only [Board.cardsOf, List.mem_map, List.mem_filter] at h
  obtain ⟨c, -, rfl⟩ := h
  rfl

/-- The store `markAsStarred` leaves: the star row is present, one `Starred` activity row is
appended, and every other table is untouched. -/
theorem markAsStarred_store (db : Store) (u b : String) (row : BoardRow)
    (hf : db.boards.find? (fun r => decide (r.id = b)) = some row) :
    ∃ db', Board.markAsStarred db u b = .ok (db', Board.summary db' u row) ∧
      (u, b) ∈ db'.starred ∧
      db'.activity = db.activity ++ [⟨db.activity.length + 1, "Starred", "board", b⟩] ∧
      db'.boards = db.boards ∧ db'.users_boards = db.users_boards ∧ db'.lists = db.lists ∧
      db'.boards_lists = db.boards_lists ∧ db'.cards = db.cards ∧
      db'.lists_cards = db.lists_cards := by
  by_cases hs : (u, b) ∈ db.starred
  · refine ⟨Board.record db "Starred" "board" b, ?_, hs, rfl, rfl, rfl, rfl, rfl, rfl, rfl⟩
    simp only [Board.markAsStarred, hf, hs, if_true]
  · refine ⟨Board.record ⟨db.users, db.boards, db.users_boards, db.lists, db.boards_lists,
      db.cards, db.lists_cards, db.starred ++ [(u, b)], db.activity⟩ "Starred" "board" b,
      ?_, ?_, rfl, rfl, rfl, rfl, rfl, rfl, rfl⟩
    · simp only [Board.markAsStarred, hf, hs, if_false]
    · simp [Board.record]

/-- The counts of a board depend only on the list and card tables. -/
theorem summary_counts_congr (db db' : Store) (u : String) (row : BoardRow)
    (hl : db'.lists = db.lists) (hbl : db'.boards_lists = db.boards_lists)
    (hc : db'.cards = db.cards) (hlc : db'.lists_cards = db.lists_cards) :
    Board.summary db' u row
      = { Board.summary db u row with starred := decide ((u, row.id) ∈ db'.starred) } := by
  simp [Board.summary, Board.listsLength, Board.cardsLength, hl, hbl, hc, hlc]

/-! ## Properties of the Board aggregate -/

/-- C3: for an existing board id `b`, `findById` returns the board with link
`/boards/b`; every nested list `l` has link `/boards/b/lists/l` and every nested card `c`
has link `/boards/b/cards/c`; the nested lists are exactly the rows of `lists` joined to
`b`, and the cards nested in a list are exactly the rows of `cards` joined to that list. -/
theorem findById_links_and_children (db : Store) (b : String)
    (hb : ∃ row ∈ db.boards, row.id = b) :
    ∃ v, Board.findById db b = .ok v ∧ v.id = b ∧ v.link = "/boards/" ++ b ∧
      (∀ lv ∈ v.lists,
        lv.link = "/boards/" ++ b ++ "/lists/" ++ lv.id ∧
        (∀ cv ∈ lv.cards, cv.link = "/boards/" ++ b ++ "/cards/" ++ cv.id) ∧
        lv.cards.map (fun cv => cv.id)
          = (db.cards.filter fun c => decide ((lv.id, c.id) ∈ db.lists_cards)).map
              (fun c => c.id) ∧
        (∀ c, c ∈ lv.cards.map (fun cv => cv.id)
          ↔ (∃ row ∈ db.cards, row.id = c) ∧ (lv.id, c) ∈ db.lists_cards)) ∧
      v.lists.map (fun lv => lv.id)
        = (db.lists.filter fun l => decide ((b, l.id) ∈ db.boards_lists)).map (fun l => l.id) ∧
      (∀ l, l ∈ v.lists.map (fun lv => lv.id)
        ↔ (∃ row ∈ db.lists, row.id = l) ∧ (b, l) ∈ db.boards_lists) := by
  obtain ⟨row, hf, hid, -⟩ := find_board_of_exists db b hb
  have hv : Board.findById db b
      = .ok ⟨row.id, row.title, Board.boardLink row.id, Board.listsOf db row.id⟩ := by
    simp only [Board.findById, hf]
  refine ⟨_, hv, hid, by simp only [Board.boardLink, hid], ?_, ?_, ?_⟩
  · intro lv hlv
    rw [hid] at hlv
    obtain ⟨hlink, hcards⟩ := listsOf_mem db b lv hlv
    refine ⟨hlink, ?_, ?_, ?_⟩
    · intro cv hcv
      rw [hcards] at hcv
      exact cardsOf_mem db b lv.id cv hcv
    · rw [hcards, cardsOf_ids]
    · intro c
      rw [hcards, cardsOf_ids]
      simp only [List.mem_map, List.mem_filter, decide_eq_true_eq]
      constructor
      · rintro ⟨r, ⟨hr, hj⟩, rfl⟩
        exact ⟨⟨r, hr, rfl⟩, hj⟩
      · rintro ⟨⟨r, hr, rfl⟩, hj⟩
        exact ⟨r, ⟨hr, hj⟩, rfl⟩
  · simp only [hid]
    exact listsOf_ids db b
  · intro l
    simp only [hid]
    rw [listsOf_ids]
    simp only [List.mem_map, List.mem_filter, decide_eq_true_eq]
    constructor
    · rintro ⟨r, ⟨hr, hj⟩, rfl⟩
      exact ⟨⟨r, hr, rfl⟩, hj⟩
    · rintro ⟨⟨r, hr, rfl⟩, hj⟩
      exact ⟨r, ⟨hr, hj⟩, rfl⟩

/-- C3 on the fixture of the test: board `b1` with list `l1` holding card `c1`. -/
theorem findById_links_and_children_witness :
    (∃ row ∈ (setup "b1" "b2" "l1" "c1" "u1").boards, row.id = "b1") ∧
    Board.findById (setup "b1" "b2" "l1" "c1" "u1") "b1"
      = .ok ⟨"b1", "test board", "/boards/b1",
          [⟨"l1", "test list", "/boards/b1/lists/l1",
            [⟨"c1", "test card", "/boards/b1/cards/c1"⟩]⟩]⟩ ∧
    ∃ v, Board.findById (setup "b1" "b2" "l1" "c1" "u1") "b1" = .ok v ∧ v.id = "b1" ∧
      v.link = "/boards/" ++ "b1" ∧
      (∀ lv ∈ v.lists,
        lv.link = "/boards/" ++ "b1" ++ "/lists/" ++ lv.id ∧
        (∀ cv ∈ lv.cards, cv.link = "/boards/" ++ "b1" ++ "/cards/" ++ cv.id) ∧
        lv.cards.map (fun cv => cv.id)
          = ((setup "b1" "b2" "l1" "c1" "u1").cards.filter fun c =>
              decide ((lv.id, c.id) ∈ (setup "b1" "b2" "l1" "c1" "u1").lists_cards)).map
              (fun c => c.id) ∧
        (∀ c, c ∈ lv.cards.map (fun cv => cv.id)
          ↔ (∃ row ∈ (setup "b1" "b2" "l1" "c1" "u1").cards, row.id = c) ∧
            (lv.id, c) ∈ (setup "b1" "b2" "l1" "c1" "u1").lists_cards)) ∧
      v.lists.map (fun lv => lv.id)
        = ((setup "b1" "b2" "l1" "c1" "u1").lists.filter fun l =>
            decide (("b1", l.id) ∈ (setup "b1" "b2" "l1" "c1" "u1").boards_lists)).map
            (fun l => l.id) ∧
      (∀ l, l ∈ v.lists.map (fun lv => lv.id)
        ↔ (∃ row ∈ (setup "b1" "b2" "l1" "c1" "u1").lists, row.id = l) ∧
          ("b1", l) ∈ (setup "b1" "b2" "l1" "c1" "u1").boards_lists) :=
  have h : ∃ row ∈ (setup "b1" "b2" "l1" "c1" "u1").boards, row.id = "b1" :=
    ⟨⟨"b1", "test board", false⟩, by decide, rfl⟩
  ⟨h, rfl, findById_links_and_children (setup "b1" "b2" "l1" "c1" "u1") "b1" h⟩

/-- C4: `findAllByUser(u)` holds an element for `b` exactly when `b` is a board linked to
`u` through `users_boards`; the ids returned are those of the linked rows of `boards`; and
for every element the `lists_length` is the number of lists nested under that board by
`findById` and the `cards_length` is the total number of cards nested under those lists. On
the fixture of the test the second board, not linked to the user, is not returned. -/
theorem findAllByUser_counts (db : Store) (u : String) :
    (∀ b, (∃ e ∈ Board.findAllByUser db u, e.id = b)
      ↔ (∃ row ∈ db.boards, row.id = b) ∧ (u, b) ∈ db.users_boards) ∧
    (Board.findAllByUser db u).map (fun e => e.id)
      = (db.boards.filter fun r => decide ((u, r.id) ∈ db.users_boards)).map (fun r => r.id) ∧
    (∀ e ∈ Board.findAllByUser db u,
      e.lists_length = (db.lists.filter fun l => decide ((e.id, l.id) ∈ db.boards_lists)).length ∧
      ∃ v, Board.findById db e.id = .ok v ∧
        e.lists_length = v.lists.length ∧
        e.cards_length = (v.lists.map fun lv => lv.cards.length).sum) ∧
    (∀ boardId board2Id listId cardId userId : String, board2Id ≠ boardId →
      Board.findAllByUser (setup boardId board2Id listId cardId userId) userId
        = [⟨boardId, "test board", "/boards/" ++ boardId, 1, 1, false⟩]) := by
  refine ⟨?_, ?_, ?_, ?_⟩
  · intro b
    simp only [Board.findAllByUser, List.mem_map, List.mem_filter, decide_eq_true_eq]
    constructor
    · rintro ⟨e, ⟨r, ⟨hr, ho⟩, rfl⟩, rfl⟩
      exact ⟨⟨r, hr, rfl⟩, ho⟩
    · rintro ⟨⟨r, hr, rfl⟩, ho⟩
      exact ⟨_, ⟨r, ⟨hr, ho⟩, rfl⟩, rfl⟩
  · simp [Board.findAllByUser, Board.summary, Function.comp_def]
  · intro e he
    simp only [Board.findAllByUser, List.mem_map, List.mem_filter] at he
    obtain ⟨r, ⟨hr, -⟩, rfl⟩ := he
    obtain ⟨row, hf, hid, -⟩ := find_board_of_exists db r.id ⟨r, hr, rfl⟩
    refine ⟨?_, ⟨row.id, row.title, Board.boardLink row.id, Board.listsOf db row.id⟩, ?_, ?_, ?_⟩
    · simp [Board.summary, Board.listsLength, List.countP_eq_length_filter]
    · simp only [Board.findById, Board.summary, hf]
    · simp only [Board.summary, hid]
      exact listsLength_eq db r.id
    · simp only [Board.summary, hid]
      exact cardsLength_eq db r.id
  · intro boardId board2Id listId cardId userId hne
    simp [Board.findAllByUser, setup, Board.summary, Board.listsLength, Board.cardsLength,
      Board.boardLink, List.filter_cons, hne]

/-- C5: for an existing board id `b`, `archive` succeeds with the result `{id: b}`; in the
store it leaves, every row of `boards` with id `b` has `archived = true` and such a row
exists, the rows of other boards are the same as before, ids and titles are untouched, the
activity log is unchanged, and so is every other table. -/
theorem archive_sets_flag_only (db : Store) (b : String)
    (hb : ∃ row ∈ db.boards, row.id = b) :
    ∃ db', Board.archive db b = .ok (db', ⟨b⟩) ∧
      (∀ row ∈ db'.boards, row.id = b → row.archived = true) ∧
      (∃ row ∈ db'.boards, row.id = b) ∧
      (∀ row : BoardRow, row.id ≠ b → (row ∈ db'.boards ↔ row ∈ db.boards)) ∧
      db'.boards.map (fun r => (r.id, r.title)) = db.boards.map (fun r => (r.id, r.title)) ∧
      db'.activity = db.activity ∧
      db'.users = db.users ∧ db'.users_boards = db.users_boards ∧ db'.lists = db.lists ∧
      db'.boards_lists = db.boards_lists ∧ db'.cards = db.cards ∧
      db'.lists_cards = db.lists_cards ∧ db'.starred = db.starred := by
  obtain ⟨row, hf, hid, hmem⟩ := find_board_of_exists db b hb
  have hv : Board.archive db b
      = .ok (⟨db.users,
              db.boards.map fun r => if r.id = b then ⟨r.id, r.title, true⟩ else r,
              db.users_boards, db.lists, db.boards_lists, db.cards, db.lists_cards,
              db.starred, db.activity⟩, ⟨b⟩) := by
    simp only [Board.archive, hf]
  refine ⟨_, hv, ?_, ?_, ?_, ?_, rfl, rfl, rfl, rfl, rfl, rfl, rfl, rfl⟩
  · intro r hr hrid
    simp only [List.mem_map] at hr
    obtain ⟨r0, -, rfl⟩ := hr
    split_ifs at hrid ⊢ with h0
    · rfl
    · exact absurd hrid h0
  · refine ⟨⟨row.id, row.title, true⟩, ?_, hid⟩
    simp only [List.mem_map]
    exact ⟨row, hmem, by simp [hid]⟩
  · intro r hr
    simp only [List.mem_map]
    constructor
    · rintro ⟨r0, hr0, rfl⟩
      split_ifs at hr ⊢ with h0
      · exact absurd h0 hr
      · exact hr0
    · intro hmem'
      exact ⟨r, hmem', by simp [hr]⟩
  · simp only [List.map_map]
    apply List.map_congr_left
    intro r _
    simp only [Function.comp]
    split_ifs <;> rfl

/-- C5 on the fixture of the test at board `b1`. -/
theorem archive_sets_flag_only_witness :
    (∃ row ∈ (setup "b1" "b2" "l1" "c1" "u1").boards, row.id = "b1") ∧
    ∃ db', Board.archive (setup "b1" "b2" "l1" "c1" "u1") "b1" = .ok (db', ⟨"b1"⟩) ∧
      (∀ row ∈ db'.boards, row.id = "b1" → row.archived = true) ∧
      (∃ row ∈ db'.boards, row.id = "b1") ∧
      (∀ row : BoardRow, row.id ≠ "b1" →
        (row ∈ db'.boards ↔ row ∈ (setup "b1" "b2" "l1" "c1" "u1").boards)) ∧
      db'.boards.map (fun r => (r.id, r.title))
        = (setup "b1" "b2" "l1" "c1" "u1").boards.map (fun r => (r.id, r.title)) ∧
      db'.activity = (setup "b1" "b2" "l1" "c1" "u1").activity ∧
      db'.users = (setup "b1" "b2" "l1" "c1" "u1").users ∧
      db'.users_boards = (setup "b1" "b2" "l1" "c1" "u1").users_boards ∧
      db'.lists = (setup "b1" "b2" "l1" "c1" "u1").lists ∧
      db'.boards_lists = (setup "b1" "b2" "l1" "c1" "u1").boards_lists ∧
      db'.cards = (setup "b1" "b2" "l1" "c1" "u1").cards ∧
      db'.lists_cards = (setup "b1" "b2" "l1" "c1" "u1").lists_cards ∧
      db'.starred = (setup "b1" "b2" "l1" "c1" "u1").starred :=
  have h : ∃ row ∈ (setup "b1" "b2" "l1" "c1" "u1").boards, row.id = "b1" :=
    ⟨⟨"b1", "test board", false⟩, by decide, rfl⟩
  ⟨h, archive_sets_flag_only (setup "b1" "b2" "l1" "c1" "u1") "b1" h⟩

/-- C7: for a board `b` that exists and is linked to user `u`, `markAsStarred` succeeds and
returns the element `findAllByUser(u)` gave for `b` (same id, title, link, `lists_length`,
`cards_length`) with `starred = true`; afterwards the activity log holds a row with action
`Starred`, type `board` and entry id `b`, and `findAllByUser(u)` holds an element for `b`,
every such element having `starred = true`. -/
theorem markAsStarred_stars_board (db : Store) (u b : String)
    (hb : ∃ row ∈ db.boards, row.id = b) (ho : (u, b) ∈ db.users_boards) :
    ∃ db' s, Board.markAsStarred db u b = .ok (db', s) ∧
      s.starred = true ∧ s.id = b ∧ s.link = "/boards/" ++ b ∧
      (∃ e ∈ Board.findAllByUser db u, e.id = b ∧
        s = ⟨e.id, e.title, e.link, e.lists_length, e.cards_length, true⟩) ∧
      (∃ a ∈ db'.activity, a.action = "Starred" ∧ a.type = "board" ∧ a.entry_id = b) ∧
      s ∈ Board.findAllByUser db' u ∧
      (∀ e ∈ Board.findAllByUser db' u, e.id = b → e.starred = true) := by
  obtain ⟨row, hf, hid, hmem⟩ := find_board_of_exists db b hb
  obtain ⟨db', hv, hstar, hact, hboards, hub, hl, hbl, hc, hlc⟩ :=
    markAsStarred_store db u b row hf
  have hsum := summary_counts_congr db db' u row hl hbl hc hlc
  have hstar' : decide ((u, row.id) ∈ db'.starred) = true := by
    rw [hid]
    exact decide_eq_true hstar
  refine ⟨db', Board.summary db' u row, hv, ?_, ?_, ?_, ?_, ?_, ?_, ?_⟩
  · simp only [Board.summary, hstar']
  · simp only [Board.summary, hid]
  · simp only [Board.summary, Board.boardLink, hid]
  · refine ⟨Board.summary db u row, ?_, ?_, ?_⟩
    · simp only [Board.findAllByUser, List.mem_map, List.mem_filter, decide_eq_true_eq]
      exact ⟨row, ⟨hmem, by rw [hid]; exact ho⟩, rfl⟩
    · simp only [Board.summary, hid]
    · rw [hsum, hstar']
  · refine ⟨⟨db.activity.length + 1, "Starred", "board", b⟩, ?_, rfl, rfl, rfl⟩
    rw [hact]
    simp
  · simp only [Board.findAllByUser, List.mem_map, List.mem_filter, decide_eq_true_eq]
    exact ⟨row, ⟨by rw [hboards]; exact hmem, by rw [hub, hid]; exact ho⟩, rfl⟩
  · intro e he hbe
    simp only [Board.findAllByUser, List.mem_map, List.mem_filter] at he
    obtain ⟨r, -, rfl⟩ := he
    simp only [Board.summary] at hbe ⊢
    rw [hbe]
    exact decide_eq_true hstar

/-- C7 on the fixture of the test: user `u1` stars board `b1`. -/
theorem markAsStarred_stars_board_witness :
    (∃ row ∈ (setup "b1" "b2" "l1" "c1" "u1").boards, row.id = "b1") ∧
    ("u1", "b1") ∈ (setup "b1" "b2" "l1" "c1" "u1").users_boards ∧
    (Board.markAsStarred (setup "b1" "b2" "l1" "c1" "u1") "u1" "b1").map Prod.snd
      = .ok ⟨"b1", "test board", "/boards/b1", 1, 1, true⟩ ∧
    ∃ db' s, Board.markAsStarred (setup "b1" "b2" "l1" "c1" "u1") "u1" "b1" = .ok (db', s) ∧
      s.starred = true ∧ s.id = "b1" ∧ s.link = "/boards/" ++ "b1" ∧
      (∃ e ∈ Board.findAllByUser (setup "b1" "b2" "l1" "c1" "u1") "u1", e.id = "b1" ∧
        s = ⟨e.id, e.title, e.link, e.lists_length, e.cards_length, true⟩) ∧
      (∃ a ∈ db'.activity, a.action = "Starred" ∧ a.type = "board" ∧ a.entry_id = "b1") ∧
      s ∈ Board.findAllByUser db' "u1" ∧
      (∀ e ∈ Board.findAllByUser db' "u1", e.id = "b1" → e.starred = true) :=
  have h : ∃ row ∈ (setup "b1" "b2" "l1" "c1" "u1").boards, row.id = "b1" :=
    ⟨⟨"b1", "test board", false⟩, by decide, rfl⟩
  have ho : ("u1", "b1") ∈ (setup "b1" "b2" "l1" "c1" "u1").users_boards := by decide
  ⟨h, ho, rfl, markAsStarred_stars_board (setup "b1" "b2" "l1" "c1" "u1") "u1" "b1" h ho⟩

end Kanban
